import Mathlib

/-!
Shallow embedding of `src/main.go` (a small go-kit string service) and proofs
of its specified properties.

The program has three layers:
  * capabilities: `stringService` (`Uppercase`, `Count`) and `osInfoService`
    (`Hostname`);
  * endpoints: `makeUppercaseEndpoint`, `makeCountEndpoint`,
    `makeHostnameEndpoint`, each of type
    `(context, interface\x7b\x7d) -> (interface\x7b\x7d, error)`;
  * transport binding: per-route JSON decode functions
    (`decodeUppercaseRequest`, `decodeCountRequest`, `decodeHostnameRequest`)
    composed with the endpoint by `httptransport.NewServer`.

Modelling choices:
  * Go `error` values are modelled by their message text (`err.Error()`),
    the only thing the program observes about them (`GoError := String`).
  * The dynamic `interface\x7b\x7d` values flowing through endpoints are
    modelled by the closed inductive `GoValue`, one constructor per concrete
    type the program ever puts in that channel, plus `other` for any foreign
    dynamic value.
  * A failed unchecked type assertion `request.(uppercaseRequest)` is a Go
    panic; an endpoint invocation therefore either panics or returns a
    `(response, error)` pair (`EndpointOutcome`).
  * `os.Hostname()` is environment input: `some h` when the lookup succeeds
    with host name `h`, `none` when it fails.
  * The raw HTTP body handed to a decode function is modelled by `RawBody`:
    empty input, input that is not a JSON document, or a parsed JSON value;
    `encoding/json` unmarshalling of that value into the request struct is
    modelled by the per-shape functions below (exact-match field lookup;
    the case-insensitive fallback of `encoding/json` is irrelevant here).
-/

namespace GoKit

/-- A Go `error`, observed only through `err.Error()`: its message text. -/
abbrev GoError := String

/-- `ErrEmpty = errors.New("empty string")` from `src/main.go`. -/
def ErrEmpty : GoError := "empty string"

/-- Go's `strings.ToUpper`: every rune of the string mapped to upper case.
`Char.toUpper` models `unicode.ToUpper` (exact on ASCII, identity on the
characters this service is exercised with). -/
def goToUpper (s : String) : String := String.mk (s.data.map Char.toUpper)

/-- Go's `len` on a string: its byte length in UTF-8. -/
def goLen (s : String) : Nat := s.utf8ByteSize

/-- The `StringService` interface of `src/main.go`: `Uppercase` returns
`(string, error)`, `Count` returns a bare `int`. -/
structure StringService where
  Uppercase : String → String × Option GoError
  Count : String → Nat

/-- The `OSInfoService` interface of `src/main.go`. -/
structure OSInfoService where
  Hostname : Unit → String × Option GoError

/-- The concrete `stringService` implementation:
`Uppercase("") = ("", ErrEmpty)`, otherwise `(strings.ToUpper(s), nil)`;
`Count(s) = len(s)`. -/
def stringService : StringService where
  Uppercase := fun s => if s = "" then ("", some ErrEmpty) else (goToUpper s, none)
  Count := goLen

/-- The concrete `osInfoService` implementation, parameterised by the result
of `os.Hostname()`: on success `(hostName, nil)`, on failure `("", ErrEmpty)`. -/
def osInfoService (env : Option String) : OSInfoService where
  Hostname := fun _ =>
    match env with
    | some h => (h, none)
    | none => ("", some ErrEmpty)

/-- A dynamically typed Go value (`interface\x7b\x7d`) as it flows through the
endpoint layer: the request and response envelope structs of `src/main.go`,
plus `other` for a value of any foreign type. -/
inductive GoValue where
  | uppercaseReq (s : String)
  | countReq (s : String)
  | hostnameReq
  | uppercaseResp (v : String) (e : String)
  | countResp (v : Nat)
  | hostnameResp (v : String) (e : String)
  | other
  deriving DecidableEq

/-- The outcome of invoking an endpoint: a Go panic (failed unchecked type
assertion), or a returned `(response, transport error)` pair. -/
inductive EndpointOutcome where
  | panicked
  | ret (resp : GoValue) (err : Option GoError)
  deriving DecidableEq

/-- `makeUppercaseEndpoint` from `src/main.go`: narrow the request with the
unchecked assertion `request.(uppercaseRequest)` (panic on any other type),
call `svc.Uppercase`, and encode a domain failure into the response's `Err`
field, always returning a nil transport error. -/
def makeUppercaseEndpoint (svc : StringService) : GoValue → EndpointOutcome :=
  fun request =>
    match request with
    | .uppercaseReq s =>
      match svc.Uppercase s with
      | (v, some err) => .ret (.uppercaseResp v err) none
      | (v, none) => .ret (.uppercaseResp v "") none
    | _ => .panicked

/-- `makeCountEndpoint` from `src/main.go`: narrow with
`request.(countRequest)` (panic on any other type), call `svc.Count`, return
the response with a nil transport error. -/
def makeCountEndpoint (svc : StringService) : GoValue → EndpointOutcome :=
  fun request =>
    match request with
    | .countReq s => .ret (.countResp (svc.Count s)) none
    | _ => .panicked

/-- `makeHostnameEndpoint` from `src/main.go`: the type assertion is commented
out, so the request value is ignored entirely; call `svc.Hostname`, encode a
domain failure into the `Err` field, always return a nil transport error. -/
def makeHostnameEndpoint (svc : OSInfoService) : GoValue → EndpointOutcome :=
  fun _ =>
    match svc.Hostname () with
    | (v, some err) => .ret (.hostnameResp v err) none
    | (v, none) => .ret (.hostnameResp v "") none

/-- A JSON value, the result of successfully parsing a request body. -/
inductive Json where
  | null
  | bool (b : Bool)
  | num (n : Int)
  | str (s : String)
  | arr (elems : List Json)
  | obj (fields : List (String × Json))

/-- The raw request body handed to a decode function: empty input (on which
`json.Decoder.Decode` fails with `io.EOF`), input that is not a JSON document
(a `SyntaxError`), or a parsed JSON value. -/
inductive RawBody where
  | empty
  | malformed
  | json (j : Json)

/-- The parse phase of `json.NewDecoder(r.Body).Decode(...)`: empty input
fails with `io.EOF`, non-JSON input fails with a syntax error. -/
def parseBody : RawBody → Except GoError Json
  | .empty => .error "EOF"
  | .malformed => .error "invalid character"
  | .json j => .ok j

/-- Unmarshalling the field tagged `json:"s"` of a parsed JSON object into a
Go `string` struct field (shared shape of `uppercaseRequest` and
`countRequest`): keys are scanned in order, a later `"s"` key overwrites an
earlier one, a JSON `null` leaves the field unchanged, a non-string value for
`"s"` is a type error, and unrelated keys are ignored. -/
def unmarshalSField : List (String × Json) → String → Except GoError String
  | [], acc => .ok acc
  | (k, v) :: rest, acc =>
    if k = "s" then
      match v with
      | .str s => unmarshalSField rest s
      | .null => unmarshalSField rest acc
      | _ => .error "cannot unmarshal into field S of type string"
    else unmarshalSField rest acc

/-- `encoding/json` unmarshalling of a parsed JSON value into a one-field
struct `\x7b S string `json:"s"` \x7d`: `null` is a no-op leaving the zero
value `""`, an object is scanned for the `"s"` key, and any other JSON kind
cannot be unmarshalled into a struct. -/
def unmarshalStringReq (j : Json) : Except GoError String :=
  match j with
  | .null => .ok ""
  | .obj fields => unmarshalSField fields ""
  | _ => .error "cannot unmarshal into struct"

/-- `encoding/json` unmarshalling of a parsed JSON value into the zero-field
struct `hostnameRequest`: `null` and any object succeed (all keys ignored),
any other JSON kind cannot be unmarshalled into a struct. -/
def unmarshalEmptyReq (j : Json) : Except GoError Unit :=
  match j with
  | .null => .ok ()
  | .obj _ => .ok ()
  | _ => .error "cannot unmarshal into struct"

/-- `decodeUppercaseRequest` from `src/main.go`: decode the body into an
`uppercaseRequest`, propagating any decode error. -/
def decodeUppercaseRequest (body : RawBody) : Except GoError GoValue :=
  match parseBody body with
  | .error e => .error e
  | .ok j =>
    match unmarshalStringReq j with
    | .error e => .error e
    | .ok s => .ok (.uppercaseReq s)

/-- `decodeCountRequest` from `src/main.go`: decode the body into a
`countRequest`, propagating any decode error. -/
def decodeCountRequest (body : RawBody) : Except GoError GoValue :=
  match parseBody body with
  | .error e => .error e
  | .ok j =>
    match unmarshalStringReq j with
    | .error e => .error e
    | .ok s => .ok (.countReq s)

/-- `decodeHostnameRequest` from `src/main.go`: decode the body into a
`hostnameRequest` (zero fields), propagating any decode error. -/
def decodeHostnameRequest (body : RawBody) : Except GoError GoValue :=
  match parseBody body with
  | .error e => .error e
  | .ok j =>
    match unmarshalEmptyReq j with
    | .error e => .error e
    | .ok () => .ok .hostnameReq

/-- The outcome of one call through a route (`httptransport.NewServer`):
a decode failure (infrastructure error, no response body), a Go panic inside
the endpoint, a transport-level error returned by the endpoint
(infrastructure error, no response body), or a response envelope handed to
the encoder. -/
inductive RouteOutcome where
  | decodeFailure (e : GoError)
  | panicked
  | endpointFailure (e : GoError)
  | response (resp : GoValue)
  deriving DecidableEq

/-- The per-call pipeline of `httptransport.NewServer`: run the route's
decode function; on failure surface the infrastructure error without
invoking the endpoint; otherwise invoke the endpoint and either surface its
transport-level error or hand its response envelope to the encoder. -/
def serveRoute (decode : RawBody → Except GoError GoValue)
    (ep : GoValue → EndpointOutcome) (body : RawBody) : RouteOutcome :=
  match decode body with
  | .error e => .decodeFailure e
  | .ok req =>
    match ep req with
    | .panicked => .panicked
    | .ret _ (some e) => .endpointFailure e
    | .ret resp none => .response resp

/-- The `/uppercase` route: `decodeUppercaseRequest` composed with
`makeUppercaseEndpoint svc`. -/
def serveUppercase (svc : StringService) (body : RawBody) : RouteOutcome :=
  serveRoute decodeUppercaseRequest (makeUppercaseEndpoint svc) body

/-- The `/count` route: `decodeCountRequest` composed with
`makeCountEndpoint svc`. -/
def serveCount (svc : StringService) (body : RawBody) : RouteOutcome :=
  serveRoute decodeCountRequest (makeCountEndpoint svc) body

/-- The `/hostname` route: `decodeHostnameRequest` composed with
`makeHostnameEndpoint svc`. -/
def serveHostname (svc : OSInfoService) (body : RawBody) : RouteOutcome :=
  serveRoute decodeHostnameRequest (makeHostnameEndpoint svc) body

/-- A route name, as registered in `main`. -/
inductive Route where
  | uppercase
  | count
  | hostname

/-- Dispatch of one incoming call to its route, with the concrete services
wired as in `main` (`svc := stringService\x7b\x7d`, `osSVC := osInfoService\x7b\x7d`). -/
def serveCall (env : Option String) : Route × RawBody → RouteOutcome
  | (.uppercase, b) => serveUppercase stringService b
  | (.count, b) => serveCount stringService b
  | (.hostname, b) => serveHostname (osInfoService env) b

/-- A sequence of incoming calls served one after the other: the program
holds no mutable state, so each call is served independently. -/
def runCalls (env : Option String) (calls : List (Route × RawBody)) :
    List RouteOutcome :=
  calls.map (serveCall env)

/-- C1: for every endpoint (uppercase, count, hostname) and every well-typed
request envelope, the endpoint returns a nil transport-level error
(`.ret _ none`) in both the domain-success and the domain-failure case; a
domain failure lives only in the response envelope's error field. -/
theorem endpoints_return_nil_transport_error (s : String) (env : Option String) :
    (∃ resp, makeUppercaseEndpoint stringService (.uppercaseReq s) = .ret resp none) ∧
    (∃ resp, makeCountEndpoint stringService (.countReq s) = .ret resp none) ∧
    (∃ resp, makeHostnameEndpoint (osInfoService env) .hostnameReq = .ret resp none) := by
  refine ⟨?_, ⟨.countResp (goLen s), rfl⟩, ?_⟩
  · by_cases h : s = ""
    · subst h
      exact ⟨.uppercaseResp "" "empty string", rfl⟩
    · exact ⟨.uppercaseResp (goToUpper s) "", by simp [makeUppercaseEndpoint, stringService, h]⟩
  · cases env with
    | some h => exact ⟨.hostnameResp h "", rfl⟩
    | none => exact ⟨.hostnameResp "" "empty string", rfl⟩

theorem endpoints_return_nil_transport_error_witness :
    (∃ resp, makeUppercaseEndpoint stringService (.uppercaseReq "hi") = .ret resp none) ∧
    (∃ resp, makeCountEndpoint stringService (.countReq "hi") = .ret resp none) ∧
    (∃ resp, makeHostnameEndpoint (osInfoService (some "gokit")) .hostnameReq = .ret resp none) :=
  endpoints_return_nil_transport_error "hi" (some "gokit")

/-- C2: for every non-empty string `s`, the uppercase operation succeeds: the
response field `v` is `s` with every character uppercased and the `err` field
is empty (absent under `omitempty`), with a nil transport error. -/
theorem uppercase_succeeds_on_nonempty (s : String) (h : s ≠ "") :
    makeUppercaseEndpoint stringService (.uppercaseReq s) =
      .ret (.uppercaseResp (String.mk (s.data.map Char.toUpper)) "") none := by
  simp [makeUppercaseEndpoint, stringService, goToUpper, h]

theorem uppercase_succeeds_on_nonempty_witness :
    makeUppercaseEndpoint stringService (.uppercaseReq "hi") =
      .ret (.uppercaseResp "HI" "") none :=
  (uppercase_succeeds_on_nonempty "hi" (by decide)).trans (by decide)

/-- C3: `uppercase("")` yields `v = ""` and `err = "empty string"` (still with
a nil transport error), and the empty string is the only input on which the
`Uppercase` capability fails. -/
theorem uppercase_empty_is_the_only_failure :
    makeUppercaseEndpoint stringService (.uppercaseReq "") =
      .ret (.uppercaseResp "" "empty string") none ∧
    ∀ s : String, s ≠ "" → (stringService.Uppercase s).2 = none := by
  refine ⟨rfl, fun s h => ?_⟩
  simp [stringService, h]

theorem uppercase_empty_is_the_only_failure_witness :
    (stringService.Uppercase "x").2 = none :=
  uppercase_empty_is_the_only_failure.2 "x" (by decide)

/-- C4: for every string `s`, including the empty string, the count endpoint
is total: it returns the byte length `len(s)` in `v` with a nil transport
error, and its response envelope `countResp` carries no error field at all. -/
theorem count_total_and_exact (s : String) :
    makeCountEndpoint stringService (.countReq s) = .ret (.countResp (goLen s)) none := rfl

theorem count_total_and_exact_witness :
    makeCountEndpoint stringService (.countReq "hello") = .ret (.countResp 5) none :=
  (count_total_and_exact "hello").trans (by decide)

/-- C5: the hostname endpoint returns `v` equal to the machine's host name and
an empty `err` field when `os.Hostname()` succeeds, and `v = ""` with
`err = "empty string"` when the lookup fails — in both cases with a nil
transport error. -/
theorem hostname_success_and_failure (h : String) :
    makeHostnameEndpoint (osInfoService (some h)) .hostnameReq =
      .ret (.hostnameResp h "") none ∧
    makeHostnameEndpoint (osInfoService none) .hostnameReq =
      .ret (.hostnameResp "" "empty string") none :=
  ⟨rfl, rfl⟩

theorem hostname_success_and_failure_witness :
    makeHostnameEndpoint (osInfoService (some "gokit")) .hostnameReq =
      .ret (.hostnameResp "gokit" "") none ∧
    makeHostnameEndpoint (osInfoService none) .hostnameReq =
      .ret (.hostnameResp "" "empty string") none :=
  hostname_success_and_failure "gokit"

/-- C6 counterexample: on a request of the wrong envelope type the uppercase
endpoint does NOT surface a transport-level error — the unchecked type
assertion `request.(uppercaseRequest)` panics, so the invocation crashes and
no `(response, error)` pair is returned at all. -/
theorem narrowing_transport_error_counterexample :
    makeUppercaseEndpoint stringService .hostnameReq = .panicked ∧
    ¬ ∃ resp e, makeUppercaseEndpoint stringService .hostnameReq = .ret resp (some e) := by
  refine ⟨rfl, ?_⟩
  rintro ⟨resp, e, hc⟩
  simp [makeUppercaseEndpoint] at hc

/-- C6 amended: for every request value that is not of the operation's
specific envelope type, the uppercase and count endpoints panic (a crash from
the failed unchecked type assertion); they never produce a domain response,
and they never return a transport-level error either. -/
theorem narrowing_failure_panics (r : GoValue)
    (h1 : ∀ s, r ≠ GoValue.uppercaseReq s) (h2 : ∀ s, r ≠ GoValue.countReq s) :
    makeUppercaseEndpoint stringService r = .panicked ∧
    makeCountEndpoint stringService r = .panicked := by
  cases r <;> first
    | exact absurd rfl (h1 _)
    | exact absurd rfl (h2 _)
    | exact ⟨rfl, rfl⟩

theorem narrowing_failure_panics_witness :
    makeUppercaseEndpoint stringService .other = .panicked ∧
    makeCountEndpoint stringService .other = .panicked :=
  narrowing_failure_panics .other (fun _ h => GoValue.noConfusion h)
    (fun _ h => GoValue.noConfusion h)

/-- C7: whenever a route's decode step fails on a malformed body, the route
surfaces the decode error as an infrastructure failure: the outcome is
`.decodeFailure e` for every choice of capability implementation (so the
capability method is never invoked) and no response envelope is produced. -/
theorem malformed_input_never_reaches_capability (b : RawBody) (e : GoError) :
    (decodeUppercaseRequest b = .error e →
      ∀ svc : StringService, serveUppercase svc b = .decodeFailure e) ∧
    (decodeCountRequest b = .error e →
      ∀ svc : StringService, serveCount svc b = .decodeFailure e) ∧
    (decodeHostnameRequest b = .error e →
      ∀ svc : OSInfoService, serveHostname svc b = .decodeFailure e) := by
  refine ⟨fun h svc => ?_, fun h svc => ?_, fun h svc => ?_⟩ <;>
    simp [serveUppercase, serveCount, serveHostname, serveRoute, h]

theorem malformed_input_never_reaches_capability_witness :
    serveUppercase stringService .malformed = .decodeFailure "invalid character" :=
  (malformed_input_never_reaches_capability .malformed "invalid character").1 rfl
    stringService

/-- C8: every route is deterministic and stateless: in any sequence of
incoming calls, the two occurrences of the same call (same route, same body,
same host-identity environment) produce the identical outcome, independent of
the calls served before, between, or after them. -/
theorem routes_stateless_deterministic (env : Option String)
    (pre mid post : List (Route × RawBody)) (c : Route × RawBody) :
    runCalls env (pre ++ c :: mid ++ c :: post) =
      runCalls env pre ++ serveCall env c :: runCalls env mid ++
        serveCall env c :: runCalls env post := by
  simp [runCalls]

theorem routes_stateless_deterministic_witness :
    runCalls (some "gokit")
        ([(.count, .malformed)] ++ (.uppercase, .empty) :: [] ++
          (.uppercase, .empty) :: []) =
      runCalls (some "gokit") [(.count, .malformed)] ++
        serveCall (some "gokit") (.uppercase, .empty) :: runCalls (some "gokit") [] ++
        serveCall (some "gokit") (.uppercase, .empty) :: runCalls (some "gokit") [] :=
  routes_stateless_deterministic (some "gokit") [(.count, .malformed)] [] []
    (.uppercase, .empty)

/-- C9: the hostname endpoint ignores its request argument entirely: any two
request values of any dynamic types give the same result, and the endpoint
never panics and never fails on a wrong-typed request — it performs no
narrowing and always returns a response with a nil transport error. -/
theorem hostname_endpoint_ignores_request (env : Option String) (r1 r2 : GoValue) :
    makeHostnameEndpoint (osInfoService env) r1 =
      makeHostnameEndpoint (osInfoService env) r2 ∧
    ∃ resp, makeHostnameEndpoint (osInfoService env) r1 = .ret resp none := by
  refine ⟨rfl, ?_⟩
  cases env with
  | some h => exact ⟨.hostnameResp h "", rfl⟩
  | none => exact ⟨.hostnameResp "" "empty string", rfl⟩

theorem hostname_endpoint_ignores_request_witness :
    makeHostnameEndpoint (osInfoService none) (.countReq "x") =
      makeHostnameEndpoint (osInfoService none) .other ∧
    ∃ resp, makeHostnameEndpoint (osInfoService none) (.countReq "x") = .ret resp none :=
  hostname_endpoint_ignores_request none (.countReq "x") .other

/-- C10: the hostname route's decode step still parses the body as a JSON
document even though `hostnameRequest` has zero fields: an empty or malformed
body makes `decodeHostnameRequest` fail, and that failure is surfaced as an
infrastructure `decodeFailure` (the operation is not reached), while a
well-formed body such as the empty JSON object decodes successfully. -/
theorem hostname_decode_requires_wellformed_body (b : RawBody)
    (h : b = RawBody.empty ∨ b = RawBody.malformed) :
    (∃ e, decodeHostnameRequest b = .error e ∧
      ∀ env, serveHostname (osInfoService env) b = .decodeFailure e) ∧
    decodeHostnameRequest (.json (.obj [])) = .ok .hostnameReq := by
  refine ⟨?_, rfl⟩
  rcases h with h | h <;> subst h
  · exact ⟨"EOF", rfl, fun env => rfl⟩
  · exact ⟨"invalid character", rfl, fun env => rfl⟩

theorem hostname_decode_requires_wellformed_body_witness :
    (∃ e, decodeHostnameRequest RawBody.empty = .error e ∧
      ∀ env, serveHostname (osInfoService env) RawBody.empty = .decodeFailure e) ∧
    decodeHostnameRequest (.json (.obj [])) = .ok .hostnameReq :=
  hostname_decode_requires_wellformed_body RawBody.empty (Or.inl rfl)

end GoKit
